import Mathlib

/-
Verification of the trinci-sdk-rust guest-side runtime against its
natural-language specification.

The development shallowly embeds the Rust sources:

  * common.rs      : the wasm-slice packing codec (wslice_create / wslice_split);
  * not_wasm.rs    : the mock host runtime (accounts, current call context,
                     host functions, call dispatch hf_s_call / hf_call, and the
                     mocked TAI asset handlers);
  * export.rs      : the guest entry point run;
  * host_wrap.rs   : the verify wrapper over hf_verify.

Machine integers are modelled as Nat / Int with explicit reductions modulo
powers of two where the Rust code can wrap.  The mock linear-memory arena and
the MessagePack wire format are elided: host functions are modelled on the
already unmarshalled values they operate on, and the asset store keeps typed
Asset values (every write in the mock stores rmp_serialize of an Asset and
every read deserializes with unwrap_or_default, so a missing key yields the
default asset; this round trip is the identity at the value level).
External deserializers (rmp_serde) are passed as explicit function parameters
where a claim is about the control flow around them.  Rust HashMaps are
modelled as association lists; the mock creates missing accounts lazily on
read, which is observationally the reads returning the default account, as
modelled here.
-/

namespace Trinci

/-- Byte buffers crossing the boundary are sequences of u8 values. -/
abbrev Bytes := List Nat

/-! ## Slice packing codec (common.rs) -/

/-- Reinterpretation of an i32 value (an integer in the interval from -2^31 to
2^31 - 1) as a u64 bit pattern, as the Rust cast `as u64` does by sign
extension: the result is the representative of x modulo 2^64. -/
def i32AsU64 (x : Int) : Nat := (x % (2:Int)^64).toNat

/-- Reinterpretation of the low 32 bits of a u64 as an i32, as the Rust cast
`as i32` does: truncate to 32 bits and read the result back in two-complement
form. -/
def u64AsI32 (x : Nat) : Int :=
  if x % 2^32 < 2^31 then ((x % 2^32 : Nat) : Int)
  else ((x % 2^32 : Nat) : Int) - 2^32

/-- The 32-bit pattern of an i32 value, used to state in which half of the
packed handle each argument lands. -/
def i32Bits (x : Int) : Nat := (x % (2:Int)^32).toNat

/-- Embedding of common.rs wslice_create: combines two i32 into one u64.  The
Rust expression is ((offset as u64) << 32) | (length as u64) & 0xffffffff,
where the and binds tighter than the or and the left shift on u64 discards the
bits shifted above position 63, hence the reduction modulo 2^64. -/
def wslice_create (offset length : Int) : Nat :=
  ((i32AsU64 offset) <<< 32) % 2^64 ||| ((i32AsU64 length) &&& 0xffffffff)

/-- Embedding of common.rs wslice_split: splits one u64 into two i32. -/
def wslice_split (wslice : Nat) : Int × Int :=
  (u64AsI32 ((wslice &&& 0xffffffff00000000) >>> 32),
   u64AsI32 (wslice &&& 0xffffffff))

/-- Disjoint bitwise or is addition: a value below 2^n occupies only the bits
that a multiple of 2^n leaves clear. -/
theorem lor_high_low (a v n : Nat) (h : v < 2^n) : (a * 2^n) ||| v = a * 2^n + v := by
  apply Nat.eq_of_testBit_eq
  intro j
  have hs : 2^n * a = a <<< n := by rw [Nat.shiftLeft_eq]; ring
  rw [Nat.testBit_lor, Nat.mul_comm a (2^n), Nat.testBit_mul_pow_two_add a h j, hs,
    Nat.testBit_shiftLeft]
  by_cases hj : j < n
  · simp [hj, Nat.not_le.mpr hj]
  · have hvj : v.testBit j = false := Nat.testBit_lt_two_pow
      (lt_of_lt_of_le h (Nat.pow_le_pow_right (by norm_num) (Nat.le_of_not_lt hj)))
    simp [hj, Nat.le_of_not_lt hj, hvj]

/-- Masking a 64-bit value written as high * 2^32 + low with the high mask
keeps exactly the high part. -/
theorem and_high_mask (a b : Nat) (ha : a < 2^32) (hb : b < 2^32) :
    (a * 2^32 + b) &&& 0xffffffff00000000 = a * 2^32 := by
  have hmask : (0xffffffff00000000 : Nat) = 2^32 * (2^32 - 1) + 0 := by norm_num
  have hx : a * 2^32 + b = 2^32 * a + b := by ring_nf
  have hr : a * 2^32 = 2^32 * a + 0 := by ring_nf
  apply Nat.eq_of_testBit_eq
  intro j
  rw [Nat.testBit_and, hmask, hx, hr,
    Nat.testBit_mul_pow_two_add a hb j,
    Nat.testBit_mul_pow_two_add (2^32 - 1) (by norm_num : (0:Nat) < 2^32) j,
    Nat.testBit_mul_pow_two_add a (by norm_num : (0:Nat) < 2^32) j]
  by_cases hj : j < 32
  · simp [hj]
  · rw [Nat.testBit_two_pow_sub_one]
    by_cases hj64 : j - 32 < 32
    · simp [hj, hj64]
    · have : a.testBit (j - 32) = false := Nat.testBit_lt_two_pow
        (lt_of_lt_of_le ha (Nat.pow_le_pow_right (by norm_num) (Nat.le_of_not_lt hj64)))
      simp [hj, hj64, this]

/-- Normal form of the packed handle: high half times 2^32 plus low half. -/
theorem create_eq_sum (offset length : Int) :
    wslice_create offset length
      = (i32AsU64 offset % 2^32) * 2^32 + i32AsU64 length % 2^32 := by
  have h1 : (i32AsU64 offset <<< 32) % 2^64 = (i32AsU64 offset % 2^32) * 2^32 := by
    rw [Nat.shiftLeft_eq, show (2:Nat)^64 = 2^32 * 2^32 by norm_num,
      Nat.mul_mod_mul_right]
  have h2 : i32AsU64 length &&& 0xffffffff = i32AsU64 length % 2^32 := by
    rw [show (0xffffffff:Nat) = 2^32 - 1 by norm_num, Nat.and_pow_two_sub_one_eq_mod]
  rw [wslice_create, h1, h2, lor_high_low _ _ 32 (Nat.mod_lt _ (by norm_num))]

/-- C3: for every i32 pair (offset, length), including negative values,
wslice_split is the exact left inverse of wslice_create, and the packed
handle carries the offset bit pattern in its high 32 bits and the length bit
pattern in its low 32 bits.  The pack function is pure and total by
construction. -/
theorem c3_wslice_roundtrip (offset length : Int)
    (ho1 : -2^31 ≤ offset) (ho2 : offset < 2^31)
    (hl1 : -2^31 ≤ length) (hl2 : length < 2^31) :
    wslice_split (wslice_create offset length) = (offset, length)
    ∧ wslice_create offset length / 2^32 = i32Bits offset
    ∧ wslice_create offset length % 2^32 = i32Bits length := by
  have hu : i32AsU64 offset % 2^32 = i32Bits offset := by
    unfold i32AsU64 i32Bits; omega
  have hv : i32AsU64 length % 2^32 = i32Bits length := by
    unfold i32AsU64 i32Bits; omega
  have hsum := create_eq_sum offset length
  have hub : i32AsU64 offset % 2^32 < 2^32 := Nat.mod_lt _ (by norm_num)
  have hvb : i32AsU64 length % 2^32 < 2^32 := Nat.mod_lt _ (by norm_num)
  have hhigh : wslice_create offset length &&& 0xffffffff00000000
      = (i32AsU64 offset % 2^32) * 2^32 := by
    rw [hsum]; exact and_high_mask _ _ hub hvb
  have hlowmask : wslice_create offset length &&& 0xffffffff
      = i32AsU64 length % 2^32 := by
    rw [show (0xffffffff:Nat) = 2^32 - 1 by norm_num, Nat.and_pow_two_sub_one_eq_mod,
      hsum]
    omega
  have hshift : ((i32AsU64 offset % 2^32) * 2^32) >>> 32 = i32AsU64 offset % 2^32 := by
    rw [Nat.shiftRight_eq_div_pow]
    exact Nat.mul_div_cancel _ (by norm_num)
  refine ⟨?_, ?_, ?_⟩
  · rw [wslice_split, hhigh, hshift, hlowmask]
    have e1 : u64AsI32 (i32AsU64 offset % 2^32) = offset := by
      unfold u64AsI32 i32AsU64
      split <;> omega
    have e2 : u64AsI32 (i32AsU64 length % 2^32) = length := by
      unfold u64AsI32 i32AsU64
      split <;> omega
    rw [e1, e2]
  · rw [hsum, hu]; omega
  · rw [hsum, hu, hv]; omega

/-- C3 witness: the round trip at the concrete pair (-5, 7), whose offset is
negative. -/
theorem c3_wslice_roundtrip_witness :
    wslice_split (wslice_create (-5) 7) = (-5, 7) :=
  (c3_wslice_roundtrip (-5) 7 (by norm_num) (by norm_num) (by norm_num)
    (by norm_num)).1

/-! ## Data model of the mock host runtime (core.rs, tai.rs, not_wasm.rs) -/

/-- Embedding of core.rs AppInput, the call context passed to every handler
invocation (aliased AppContext in common.rs).  The depth field is a u16 in the
source; it is modelled as a Nat and reduced modulo 2^16 where the dispatcher
increments it. -/
structure AppInput where
  depth : Nat
  network : String
  owner : String
  caller : String
  method : String
  origin : String
deriving DecidableEq, Repr, Inhabited

/-- Embedding of tai.rs LockPrivilege. -/
inductive LockPrivilege where
  | Owner
  | Contract
  | Creator
deriving DecidableEq, Repr, Inhabited

/-- Embedding of tai.rs LockType. -/
inductive LockType where
  | None
  | Deposit
  | Withdraw
  | Full
deriving DecidableEq, Repr, Inhabited

/-- Embedding of tai.rs Asset: a unit count plus an optional lock.  The units
field is a u64 in the source.  The derived default (0 units, no lock) matches
the Rust Default used by unwrap_or_default on a missing or empty record. -/
structure Asset where
  units : Nat
  lock : Option (LockPrivilege × LockType)
deriving DecidableEq, Repr, Inhabited

/-- Embedding of the not_wasm.rs Account test structure.  The assets map holds
typed Asset values (see the header note on the elided MessagePack round
trip). -/
structure Account where
  assets : List (String × Asset)
  data : List (String × Bytes)
  contract : Bytes
deriving DecidableEq, Repr, Inhabited

/-- Embedding of the not_wasm.rs thread-local ThreadData: the current call
context cell plus the account table.  The handler registry is threaded as a
separate explicit argument of the dispatcher (a handler cannot be stored
inside the very state type it transforms), and the memory arena is elided. -/
structure ThreadData where
  app_ctx : AppInput
  accounts : List (String × Account)
deriving DecidableEq, Repr, Inhabited

/-- Association-list lookup modelling HashMap::get. -/
def listLookup {α : Type} (k : String) : List (String × α) → Option α
  | [] => none
  | (k2, v) :: t => if k2 = k then some v else listLookup k t

/-- Association-list insert-or-replace modelling HashMap::insert. -/
def listInsert {α : Type} (k : String) (v : α) : List (String × α) → List (String × α)
  | [] => [(k, v)]
  | (k2, v2) :: t => if k2 = k then (k, v) :: t else (k2, v2) :: listInsert k v t

/-- Association-list removal modelling HashMap::remove. -/
def listRemove {α : Type} (k : String) : List (String × α) → List (String × α)
  | [] => []
  | (k2, v2) :: t => if k2 = k then t else (k2, v2) :: listRemove k t

theorem listLookup_insert_self {α : Type} (k : String) (v : α)
    (l : List (String × α)) : listLookup k (listInsert k v l) = some v := by
  induction l with
  | nil => simp [listInsert, listLookup]
  | cons h t ih =>
    obtain ⟨k2, v2⟩ := h
    by_cases hk : k2 = k
    · simp [listInsert, hk, listLookup]
    · simp [listInsert, hk, listLookup, ih]

theorem listLookup_insert_ne {α : Type} (k k2 : String) (h : k2 ≠ k) (v : α)
    (l : List (String × α)) : listLookup k2 (listInsert k v l) = listLookup k2 l := by
  have h2 : k ≠ k2 := Ne.symm h
  induction l with
  | nil => simp [listInsert, listLookup, h2]
  | cons hd t ih =>
    obtain ⟨k3, v3⟩ := hd
    by_cases hk : k3 = k
    · subst hk
      simp [listInsert, listLookup, h2]
    · simp [listInsert, hk, listLookup, ih]

/-- Embedding of not_wasm.rs get_account: a missing account behaves as the
default account. -/
def get_account (accounts : List (String × Account)) (id : String) : Account :=
  (listLookup id accounts).getD default

/-- Embedding of not_wasm.rs get_account_data. -/
def get_account_data (st : ThreadData) (src_id key : String) : Bytes :=
  (listLookup key (get_account st.accounts src_id).data).getD []

/-- Embedding of not_wasm.rs set_account_data, with its delete-on-empty
convention. -/
def set_account_data (st : ThreadData) (dst_id key : String) (d : Bytes) :
    ThreadData :=
  let acc := get_account st.accounts dst_id
  let newData := if d = [] then listRemove key acc.data else listInsert key d acc.data
  { st with accounts := listInsert dst_id { acc with data := newData } st.accounts }

/-- Embedding of not_wasm.rs get_account_keys: the keys of the keyed-data map
of one account. -/
def get_account_keys (st : ThreadData) (src_id : String) : List String :=
  ((get_account st.accounts src_id).data).map Prod.fst

/-- Embedding of not_wasm.rs get_account_asset at the typed level. -/
def get_account_asset (st : ThreadData) (src_id asset : String) : Option Asset :=
  listLookup asset (get_account st.accounts src_id).assets

/-- Embedding of not_wasm.rs set_account_asset at the typed level. -/
def set_account_asset (st : ThreadData) (dst_id asset : String) (value : Asset) :
    ThreadData :=
  let acc := get_account st.accounts dst_id
  { st with accounts := listInsert dst_id { acc with assets := listInsert asset value acc.assets } st.accounts }

/-- Embedding of host_wrap.rs load_asset_typed over hf_load_asset: reads the
asset named after the current owner from the given account, defaulting on a
missing record. -/
def load_asset_typed (st : ThreadData) (id : String) : Asset :=
  (get_account_asset st id st.app_ctx.owner).getD default

/-- Embedding of host_wrap.rs store_asset_typed over hf_store_asset. -/
def store_asset_typed (st : ThreadData) (id : String) (value : Asset) : ThreadData :=
  set_account_asset st id st.app_ctx.owner value

/-- Embedding of hf_store_data: keyed data is stored under the current owner. -/
def hf_store_data (st : ThreadData) (key : String) (d : Bytes) : ThreadData :=
  set_account_data st st.app_ctx.owner key d

deriving instance DecidableEq for Except

/-- Embedding of core.rs AppOutput through its two smart constructors from
export.rs: ok carries result bytes, ko carries the UTF-8 of an error message
(kept here as the message itself; UTF-8 encoding is injective). -/
inductive AppOutput where
  | ok (data : Bytes)
  | ko (msg : String)
deriving DecidableEq, Repr

/-! ## Call dispatch (not_wasm.rs hf_s_call / hf_call) -/

/-- Type of registered contract methods: not_wasm.rs ContractFunc with the
thread-local state made explicit. -/
def ContractFunc :=
  AppInput → Bytes → ThreadData → ThreadData × Except String Bytes

/-- The handler registry, keyed by the string account:method exactly as the
mock builds it with format!. -/
abbrev Registry := List (String × ContractFunc)

/-- Translation of a handler outcome into the boundary output shape, as
hf_s_call and run perform it. -/
def outputOf : Except String Bytes → AppOutput
  | .ok res => .ok res
  | .error err => .ko err

/-- The child context built by hf_s_call for a nested invocation: owner
becomes the callee, caller becomes the previous owner, depth is the u16
increment of the previous depth, network and origin are copied. -/
def mk_child_ctx (ctx : AppInput) (account method : String) : AppInput :=
  { owner := account
    caller := ctx.owner
    method := method
    depth := (ctx.depth + 1) % 2^16
    network := ctx.network
    origin := ctx.origin }

/-- The contract-fingerprint comparison of hf_s_call: the stored contract of
the callee account must equal the expected code byte-for-byte; a missing
account compares false. -/
def contract_check (accounts : List (String × Account)) (account : String)
    (contract : Bytes) : Bool :=
  match listLookup account accounts with
  | some acc => acc.contract == contract
  | none => false

/-- Embedding of not_wasm.rs hf_s_call, the dispatch and reentrancy engine:
optional fingerprint check, registry lookup, child-context construction,
handler execution, unconditional restoration of the previous context, and
translation of the outcome. -/
def hf_s_call (reg : Registry) (account : String) (contract : Bytes)
    (method : String) (args : Bytes) (st : ThreadData) : ThreadData × AppOutput :=
  let ctx := st.app_ctx
  if contract ≠ [] ∧ contract_check st.accounts account contract = false then
    (st, .ko "incompatible contract app")
  else
    match listLookup (account ++ ":" ++ method) reg with
    | none => (st, .ko "method not found")
    | some method_func =>
      let prev_ctx := ctx
      let child := mk_child_ctx ctx account method
      let r := method_func child args { st with app_ctx := child }
      ({ r.1 with app_ctx := prev_ctx }, outputOf r.2)

/-- Embedding of not_wasm.rs hf_call: the plain call path passes a zero-length
expected contract code to hf_s_call. -/
def hf_call (reg : Registry) (account method : String) (args : Bytes)
    (st : ThreadData) : ThreadData × AppOutput :=
  hf_s_call reg account [] method args st

/-- Embedding of not_wasm.rs call_wrap: installs the given context as current
and runs the handler, as the tests do for the outermost invocation. -/
def call_wrap (func : ContractFunc) (ctx : AppInput) (args : Bytes)
    (st : ThreadData) : ThreadData × Except String Bytes :=
  func ctx args { st with app_ctx := ctx }

/-- C1: the dispatch engine restores the context that was current before a
nested invocation on every exit path, whether the handler returns Ok or Err
(the universally quantified handler covers both), and therefore a subsequent
sibling dispatch at the same depth builds its child context, and hence its
observed owner and caller identity, exactly as if the nested call had never
happened. -/
theorem c1_context_restored (reg : Registry) (account : String) (contract : Bytes)
    (method : String) (args : Bytes) (st : ThreadData) :
    (hf_s_call reg account contract method args st).1.app_ctx = st.app_ctx
    ∧ ∀ account2 method2 : String,
        mk_child_ctx (hf_s_call reg account contract method args st).1.app_ctx
            account2 method2
          = mk_child_ctx st.app_ctx account2 method2 := by
  have h : (hf_s_call reg account contract method args st).1.app_ctx = st.app_ctx := by
    unfold hf_s_call
    split
    · rfl
    · split
      · rfl
      · rfl
  exact ⟨h, fun a2 m2 => by rw [h]⟩

/-- UTF-8 encoding of one code point. -/
def utf8Bytes (c : Char) : List Nat :=
  let n := c.toNat
  if n < 0x80 then [n]
  else if n < 0x800 then [0xC0 + n / 64, 0x80 + n % 64]
  else if n < 0x10000 then [0xE0 + n / 4096, 0x80 + (n / 64) % 64, 0x80 + n % 64]
  else [0xF0 + n / 262144, 0x80 + (n / 4096) % 64, 0x80 + (n / 64) % 64, 0x80 + n % 64]

/-- UTF-8 encoding of a string, the byte sequence Rust exposes through
str::as_bytes and str::len. -/
def strBytes (s : String) : Bytes := (s.data.map utf8Bytes).flatten

/-! ## A three-level call chain fixture for the nesting claims -/

/-- Test handler helper: record the currently observed context (depth, origin,
network) into the keyed data of the current owner. -/
def recordCtx (st : ThreadData) : ThreadData :=
  let st1 := hf_store_data st "depth" [st.app_ctx.depth]
  let st2 := hf_store_data st1 "origin" (strBytes st1.app_ctx.origin)
  hf_store_data st2 "network" (strBytes st2.app_ctx.network)

/-- Leaf handler of the chain: records its context and returns. -/
def handler_c : ContractFunc := fun _ctx _args st => (recordCtx st, .ok [])

/-- Registry holding the leaf method. -/
def reg_c : Registry := [("C:go", handler_c)]

/-- Middle handler: records its context, then invokes C through the dispatch
engine. -/
def handler_b : ContractFunc := fun _ctx args st =>
  let r := hf_s_call reg_c "C" [] "go" args (recordCtx st)
  (r.1, match r.2 with | .ok d => .ok d | .ko m => .error m)

/-- Registry holding the middle method. -/
def reg_b : Registry := [("B:go", handler_b)]

/-- Outermost handler: records its context, then invokes B through the
dispatch engine. -/
def handler_a : ContractFunc := fun _ctx args st =>
  let r := hf_s_call reg_b "B" [] "go" args (recordCtx st)
  (r.1, match r.2 with | .ok d => .ok d | .ko m => .error m)

/-- The depth-0 context in which A runs, as create_app_context builds it in
the mock (network skynet, origin equal to the caller). -/
def chain_ctx0 : AppInput :=
  { depth := 0, network := "skynet", owner := "A", caller := "Origin",
    method := "go", origin := "Origin" }

/-- Empty starting state of the chain. -/
def chain_st0 : ThreadData := { app_ctx := chain_ctx0, accounts := [] }

/-- Final state after running the chain A to B to C from depth 0. -/
def chain_final : ThreadData := (call_wrap handler_a chain_ctx0 [] chain_st0).1

/-- C2: a dispatch through hf_s_call executes the registered handler with a
child context whose owner is the callee, whose caller is the owner of the
current context, whose method is the invoked method, whose depth is the u16
increment of the current depth, and whose network and origin are copied
unchanged; consequently the chain A to B to C started at depth 0 observes
depths 0, 1, 2 and identical origin and network at all three levels. -/
theorem c2_child_context_fields :
    (∀ (reg : Registry) (account method : String) (args : Bytes) (st : ThreadData)
        (f : ContractFunc),
      listLookup (account ++ ":" ++ method) reg = some f →
      hf_s_call reg account [] method args st =
        (let child : AppInput :=
          { owner := account, caller := st.app_ctx.owner, method := method,
            depth := (st.app_ctx.depth + 1) % 2^16,
            network := st.app_ctx.network, origin := st.app_ctx.origin }
         let r := f child args { st with app_ctx := child }
         ({ r.1 with app_ctx := st.app_ctx }, outputOf r.2)))
    ∧ get_account_data chain_final "A" "depth" = [0]
    ∧ get_account_data chain_final "B" "depth" = [1]
    ∧ get_account_data chain_final "C" "depth" = [2]
    ∧ get_account_data chain_final "B" "origin" = get_account_data chain_final "A" "origin"
    ∧ get_account_data chain_final "C" "origin" = get_account_data chain_final "A" "origin"
    ∧ get_account_data chain_final "B" "network" = get_account_data chain_final "A" "network"
    ∧ get_account_data chain_final "C" "network" = get_account_data chain_final "A" "network" := by
  refine ⟨?_, by decide, by decide, by decide, by decide, by decide, by decide, by decide⟩
  intro reg account method args st f h
  unfold hf_s_call
  simp [h, mk_child_ctx]

/-- C2 witness: the dispatch equation applied to a one-entry registry with a
handler that leaves the state unchanged and returns the byte 7. -/
theorem c2_child_context_fields_witness :
    hf_s_call [("Acc:m", (fun _ _ s => (s, Except.ok [7]) : ContractFunc))]
        "Acc" [] "m" [] chain_st0
      = (chain_st0, AppOutput.ok [7]) := by
  have h := c2_child_context_fields.1
    [("Acc:m", (fun _ _ s => (s, Except.ok [7]) : ContractFunc))]
    "Acc" "m" [] chain_st0
    (fun _ _ s => (s, Except.ok [7]))
    (by simp [listLookup])
  simpa [outputOf] using h

/-- C9: the scoped-call guard paths of hf_s_call.  A non-empty expected code
with a missing callee account or a byte-level mismatch against the stored
contract yields the failure incompatible contract app with the state, and in
particular the current context, untouched and no handler executed; an empty
expected code skips the fingerprint check (the plain hf_call path); when the
check passes or is skipped, a registry miss yields the failure method not
found, again leaving the state untouched. -/
theorem c9_scoped_call_guards :
    (∀ (reg : Registry) (account : String) (contract : Bytes) (method : String)
        (args : Bytes) (st : ThreadData), contract ≠ [] →
      listLookup account st.accounts = none →
      hf_s_call reg account contract method args st
        = (st, .ko "incompatible contract app"))
    ∧ (∀ (reg : Registry) (account : String) (contract : Bytes) (method : String)
        (args : Bytes) (st : ThreadData) (acc : Account), contract ≠ [] →
      listLookup account st.accounts = some acc → acc.contract ≠ contract →
      hf_s_call reg account contract method args st
        = (st, .ko "incompatible contract app"))
    ∧ (∀ (reg : Registry) (account : String) (contract : Bytes) (method : String)
        (args : Bytes) (st : ThreadData),
      (contract = [] ∨ contract_check st.accounts account contract = true) →
      listLookup (account ++ ":" ++ method) reg = none →
      hf_s_call reg account contract method args st = (st, .ko "method not found"))
    ∧ (∀ (reg : Registry) (account method : String) (args : Bytes) (st : ThreadData),
      hf_call reg account method args st = hf_s_call reg account [] method args st) := by
  refine ⟨?_, ?_, ?_, fun _ _ _ _ _ => rfl⟩
  · intro reg account contract method args st hne hacc
    unfold hf_s_call contract_check
    rw [hacc]
    simp [hne]
  · intro reg account contract method args st acc hne hacc hcon
    unfold hf_s_call contract_check
    rw [hacc]
    simp [hne, hcon]
  · intro reg account contract method args st hcc hreg
    rcases hcc with h | h
    · subst h
      simp [hf_s_call, hreg]
    · simp [hf_s_call, h, hreg]

/-- C9 witness: scoped call with expected code byte 9 against an absent
account in the empty state. -/
theorem c9_scoped_call_guards_witness :
    hf_s_call [] "X" [9] "m" [] chain_st0
      = (chain_st0, AppOutput.ko "incompatible contract app") :=
  c9_scoped_call_guards.1 [] "X" [9] "m" [] chain_st0 (by decide) (by decide)

/-! ## Mocked TAI asset transfer (not_wasm.rs asset_transfer, tai.rs) -/

/-- Embedding of tai.rs AssetTransferArgs.  The Rust fields from and to are
reserved words here, kept as fromId and toId. -/
structure AssetTransferArgs where
  fromId : String
  toId : String
  units : Nat
  data : Option Bytes
deriving DecidableEq, Repr

/-- Embedding of not_wasm.rs asset_transfer, the mocked TAI Asset transfer
handler, at the typed argument level (the rmp decoding of the packed argument
buffer is elided; a malformed buffer panics on unwrap in the source).  The ok
payload [192] is the MessagePack encoding of the unit value that the source
serializes.  The deposit addition is u64 arithmetic, hence the reduction
modulo 2^64. -/
def asset_transfer (_ctx : AppInput) (args : AssetTransferArgs) (st : ThreadData) :
    ThreadData × Except String Bytes :=
  let value := load_asset_typed st args.fromId
  if value.lock.isSome then (st, .error "source account locked")
  else if value.units < args.units then (st, .error "error during transfer")
  else
    let value2 : Asset := { value with units := value.units - args.units }
    let st1 := store_asset_typed st args.fromId value2
    let dvalue := load_asset_typed st1 args.toId
    if dvalue.lock.isSome then (st1, .error "destination account locked")
    else
      let dvalue2 : Asset := { dvalue with units := (dvalue.units + args.units) % 2^64 }
      let st2 := store_asset_typed st1 args.toId dvalue2
      (st2, .ok [192])

theorem store_app_ctx (st : ThreadData) (id : String) (v : Asset) :
    (store_asset_typed st id v).app_ctx = st.app_ctx := rfl

theorem load_store_same (st : ThreadData) (id : String) (v : Asset) :
    load_asset_typed (store_asset_typed st id v) id = v := by
  unfold load_asset_typed store_asset_typed set_account_asset get_account_asset get_account
  simp [listLookup_insert_self]

theorem load_store_other (st : ThreadData) (id id2 : String) (h : id2 ≠ id)
    (v : Asset) :
    load_asset_typed (store_asset_typed st id v) id2 = load_asset_typed st id2 := by
  unfold load_asset_typed store_asset_typed set_account_asset get_account_asset get_account
  simp [listLookup_insert_ne _ _ h]

/-- C6: a transfer between two distinct unlocked accounts with sufficient
source units and no u64 overflow on the destination succeeds, debits the
source by the transferred units, credits the destination by the same amount,
and conserves the total. -/
theorem c6_transfer_conservation (ctx : AppInput) (st : ThreadData)
    (args : AssetTransferArgs) (A B : Nat)
    (hne : args.fromId ≠ args.toId)
    (hfrom : load_asset_typed st args.fromId = { units := A, lock := none })
    (hto : load_asset_typed st args.toId = { units := B, lock := none })
    (hn : args.units ≤ A)
    (hrange : B + args.units < 2^64) :
    (asset_transfer ctx args st).2 = Except.ok [192]
    ∧ load_asset_typed (asset_transfer ctx args st).1 args.fromId
        = { units := A - args.units, lock := none }
    ∧ load_asset_typed (asset_transfer ctx args st).1 args.toId
        = { units := B + args.units, lock := none }
    ∧ (A - args.units) + (B + args.units) = A + B := by
  have hto1 : load_asset_typed
      (store_asset_typed st args.fromId { units := A - args.units, lock := none })
      args.toId = { units := B, lock := none } := by
    rw [load_store_other _ _ _ (Ne.symm hne), hto]
  have key : asset_transfer ctx args st
      = (store_asset_typed
          (store_asset_typed st args.fromId { units := A - args.units, lock := none })
          args.toId { units := B + args.units, lock := none },
         Except.ok [192]) := by
    unfold asset_transfer
    rw [hfrom]
    have hmod : (B + args.units) % 18446744073709551616 = B + args.units := by omega
    simp [Nat.not_lt.mpr hn, hto1, hmod]
  rw [key]
  refine ⟨rfl, ?_, ?_, by omega⟩
  · rw [load_store_other _ _ _ hne, load_store_same]
  · rw [load_store_same]

/-- Shared context fixture for the transfer claims: the asset contract AST is
the current owner, alice invoked it. -/
def w_ctx : AppInput :=
  { depth := 0, network := "skynet", owner := "AST", caller := "alice",
    method := "transfer", origin := "alice" }

/-- Account fixture holding u units of the AST asset under the given lock. -/
def w_holder (u : Nat) (lk : Option (LockPrivilege × LockType)) : Account :=
  { assets := [("AST", { units := u, lock := lk })], data := [], contract := [] }

/-- Transfer argument fixture: 3 units from alice to bob. -/
def w_args : AssetTransferArgs :=
  { fromId := "alice", toId := "bob", units := 3, data := none }

/-- State fixture for the C6 witness: both accounts unlocked. -/
def c6_st : ThreadData :=
  { app_ctx := w_ctx,
    accounts := [("alice", w_holder 10 none), ("bob", w_holder 4 none)] }

/-- C6 witness: a transfer of 3 units between two concrete unlocked accounts
holding 10 and 4 units. -/
theorem c6_transfer_conservation_witness :
    (asset_transfer w_ctx w_args c6_st).2 = Except.ok [192] :=
  (c6_transfer_conservation _ _ _ 10 4 (by decide) (by decide) (by decide)
    (by decide) (by decide)).1

/-- Helper shared by the lock claims: with an unlocked source on a distinct
account holding at least the transferred units and a locked destination, the
transfer returns the destination-locked failure with the source already
debited. -/
theorem transfer_dest_locked (ctx : AppInput) (st : ThreadData)
    (args : AssetTransferArgs) (A : Nat)
    (hne : args.fromId ≠ args.toId)
    (hfrom : load_asset_typed st args.fromId = { units := A, lock := none })
    (hn : args.units ≤ A)
    (hlock : (load_asset_typed st args.toId).lock.isSome = true) :
    asset_transfer ctx args st
      = (store_asset_typed st args.fromId { units := A - args.units, lock := none },
         Except.error "destination account locked") := by
  have hlock1 : (load_asset_typed
      (store_asset_typed st args.fromId { units := A - args.units, lock := none })
      args.toId).lock.isSome = true := by
    rw [load_store_other _ _ _ (Ne.symm hne)]
    exact hlock
  unfold asset_transfer
  rw [hfrom]
  simp [Nat.not_lt.mpr hn, hlock1]

/-- C5: the transfer handler is not atomic on the destination-locked path:
with an unlocked source holding enough units and a locked destination, the
call fails with destination account locked while the source has already been
debited in the returned state. -/
theorem c5_debit_committed_on_destination_lock (ctx : AppInput) (st : ThreadData)
    (args : AssetTransferArgs) (A : Nat)
    (hne : args.fromId ≠ args.toId)
    (hfrom : load_asset_typed st args.fromId = { units := A, lock := none })
    (hn : args.units ≤ A)
    (hlock : (load_asset_typed st args.toId).lock.isSome = true) :
    (asset_transfer ctx args st).2 = Except.error "destination account locked"
    ∧ load_asset_typed (asset_transfer ctx args st).1 args.fromId
        = { units := A - args.units, lock := none } := by
  rw [transfer_dest_locked ctx st args A hne hfrom hn hlock]
  exact ⟨rfl, load_store_same _ _ _⟩

/-- State fixture for the C5 witness: unlocked source, fully locked
destination. -/
def c5_st : ThreadData :=
  { app_ctx := w_ctx,
    accounts := [("alice", w_holder 10 none),
                 ("bob", w_holder 4 (some (LockPrivilege.Owner, LockType.Full)))] }

/-- C5 witness: transferring 3 of 10 units from an unlocked source to a fully
locked destination fails on the destination side. -/
theorem c5_debit_committed_on_destination_lock_witness :
    (asset_transfer w_ctx w_args c5_st).2
      = Except.error "destination account locked" :=
  (c5_debit_committed_on_destination_lock _ _ _ 10 (by decide) (by decide)
    (by decide) (by decide)).1

/-! ## C4: direction of the Deposit lock in the mocked transfer -/

/-- State for the C4 counterexample: alice holds 10 units under a Deposit
lock, bob is unlocked. -/
def c4_st : ThreadData :=
  { app_ctx := w_ctx,
    accounts := [("alice", w_holder 10 (some (LockPrivilege.Owner, LockType.Deposit))),
                 ("bob", w_holder 0 none)] }

/-- C4 counterexample: alice has a Deposit lock, sufficient units (10 of
which 5 are sent) and an unlocked destination, yet the outgoing transfer does
not succeed: it fails with source account locked, because the mocked handler
rejects any non-None lock on the source. -/
theorem c4_deposit_lock_counterexample :
    (load_asset_typed c4_st "alice").lock
        = some (LockPrivilege.Owner, LockType.Deposit)
    ∧ 5 ≤ (load_asset_typed c4_st "alice").units
    ∧ (load_asset_typed c4_st "bob").lock = none
    ∧ (asset_transfer w_ctx
        { fromId := "alice", toId := "bob", units := 5, data := none } c4_st).2
      = Except.error "source account locked" := by
  refine ⟨by decide, by decide, by decide, by decide⟩

/-- C4 amended: in the mocked transfer any non-None lock blocks both
directions.  A transfer into a Deposit-locked destination (from a distinct
unlocked source with sufficient units) fails with destination account locked,
and a transfer out of a Deposit-locked source fails with source account
locked rather than succeeding. -/
theorem c4_deposit_lock_amended :
    (∀ (ctx : AppInput) (st : ThreadData) (args : AssetTransferArgs) (A : Nat)
        (p : LockPrivilege),
      args.fromId ≠ args.toId →
      load_asset_typed st args.fromId = { units := A, lock := none } →
      args.units ≤ A →
      (load_asset_typed st args.toId).lock = some (p, LockType.Deposit) →
      (asset_transfer ctx args st).2 = Except.error "destination account locked")
    ∧ (∀ (ctx : AppInput) (st : ThreadData) (args : AssetTransferArgs)
        (p : LockPrivilege),
      (load_asset_typed st args.fromId).lock = some (p, LockType.Deposit) →
      (asset_transfer ctx args st).2 = Except.error "source account locked") := by
  constructor
  · intro ctx st args A p hne hfrom hn hlock
    rw [transfer_dest_locked ctx st args A hne hfrom hn (by rw [hlock]; rfl)]
  · intro ctx st args p hlock
    unfold asset_transfer
    have : (load_asset_typed st args.fromId).lock.isSome = true := by
      rw [hlock]; rfl
    simp [this]

/-- C4 witness: the amended incoming direction at a concrete state where bob
holds a Deposit lock, and the amended outgoing direction at the C4
counterexample state. -/
theorem c4_deposit_lock_amended_witness :
    (asset_transfer w_ctx
        { fromId := "alice", toId := "bob", units := 5, data := none } c4_st).2
      = Except.error "source account locked" :=
  c4_deposit_lock_amended.2 w_ctx c4_st
    { fromId := "alice", toId := "bob", units := 5, data := none }
    LockPrivilege.Owner (by decide)

/-! ## Key listing (not_wasm.rs hf_get_keys) -/

/-- Result of hf_get_keys before envelope serialization: either the failure
message or the selected keys (the source wraps this into AppOutput with the
key list rmp-serialized). -/
inductive GetKeysOut where
  | ko (msg : String)
  | ok (keys : List String)
deriving DecidableEq, Repr

/-- A UTF-8 continuation byte, 0x80 to 0xBF.  A Rust str byte-slice whose
boundary falls on such a byte is not on a char boundary and panics. -/
def isUtf8ContByte (b : Nat) : Bool := 128 ≤ b && b < 192

/-- Embedding of not_wasm.rs hf_get_keys over the byte sequence of the
pattern.  The source tests the last BYTE of the pattern through the str slice
of its final byte: an empty pattern or a last byte other than the star (42)
yields the failure message, but when the last byte is a UTF-8 continuation
byte the slice operation itself panics (modelled as none) before any
comparison.  Otherwise the keys of the current owner are filtered by the byte
prefix of the pattern without its trailing star; the redundant emptiness test
mirrors the source. -/
def hf_get_keys (st : ThreadData) (pattern : Bytes) : Option GetKeysOut :=
  if pattern = [] then some (.ko "last char of search pattern must be '*'")
  else if isUtf8ContByte (pattern.getLastD 0) then none
  else if pattern.getLastD 0 ≠ 42 then
    some (.ko "last char of search pattern must be '*'")
  else
    let pref := pattern.dropLast
    let keys := get_account_keys st st.app_ctx.owner
    some (.ok (keys.filter (fun s => pref.isEmpty || pref.isPrefixOf (strBytes s))))

/-- The filter predicate of hf_get_keys with its redundant emptiness test is
plain byte-prefix selection: the empty prefix is a prefix of everything. -/
theorem getKeys_pred_eq (pref : Bytes) (x : String) :
    (pref.isEmpty || pref.isPrefixOf (strBytes x)) = pref.isPrefixOf (strBytes x) := by
  cases pref <;> simp [List.isPrefixOf]

/-- State fixture for the get-keys claims: the current owner acc holds the
keys key1, key2 and other. -/
def gk_st : ThreadData :=
  { app_ctx := { depth := 0, network := "skynet", owner := "acc", caller := "acc", method := "get_keys", origin := "acc" },
    accounts := [("acc", { assets := [], data := [("key1", [1]), ("key2", [2]), ("other", [3])], contract := [] })] }

/-- C8 counterexample: the pattern given by the single character e-acute is
non-empty and its last character is not the star, yet hf_get_keys does not
return the failure message: its last byte (169) is a UTF-8 continuation byte,
so the mock panics on a non-boundary string slice. -/
theorem c8_get_keys_counterexample :
    strBytes "é" = [195, 169]
    ∧ 'é' ≠ '*'
    ∧ hf_get_keys gk_st (strBytes "é") = none := by
  refine ⟨by decide, by decide, by decide⟩

/-- C8 amended: an empty pattern, or one whose last byte is neither the star
nor a UTF-8 continuation byte, fails with exactly the message about the star;
a non-empty pattern ending in a continuation byte (any pattern whose last
character is multi-byte) makes the mock panic instead of failing; a pattern
ending in the star returns exactly those keys of the current owner whose
UTF-8 encoding starts with the pattern bytes minus the trailing star, the
empty prefix matching every key. -/
theorem c8_get_keys_amended :
    (∀ (st : ThreadData) (pattern : Bytes),
      pattern = [] ∨ (isUtf8ContByte (pattern.getLastD 0) = false
          ∧ pattern.getLastD 0 ≠ 42) →
      hf_get_keys st pattern
        = some (.ko "last char of search pattern must be '*'"))
    ∧ (∀ (st : ThreadData) (pattern : Bytes), pattern ≠ [] →
      isUtf8ContByte (pattern.getLastD 0) = true →
      hf_get_keys st pattern = none)
    ∧ (∀ (st : ThreadData) (pattern : Bytes), pattern ≠ [] →
      pattern.getLastD 0 = 42 →
      hf_get_keys st pattern
        = some (.ok ((get_account_keys st st.app_ctx.owner).filter
            (fun s => pattern.dropLast.isPrefixOf (strBytes s))))
      ∧ ∀ k, (k ∈ (get_account_keys st st.app_ctx.owner).filter
            (fun s => pattern.dropLast.isPrefixOf (strBytes s))
          ↔ k ∈ get_account_keys st st.app_ctx.owner
            ∧ pattern.dropLast.isPrefixOf (strBytes k))) := by
  refine ⟨?_, ?_, ?_⟩
  · intro st pattern h
    rcases h with h | ⟨h1, h2⟩
    · simp [hf_get_keys, h]
    · by_cases hp : pattern = []
      · simp [hf_get_keys, hp]
      · unfold hf_get_keys
        rw [if_neg hp, h1, if_neg Bool.false_ne_true, if_pos h2]
  · intro st pattern hp hcont
    unfold hf_get_keys
    rw [if_neg hp, hcont]
    simp
  · intro st pattern hp h42
    have hpred : (fun s => pattern.dropLast.isEmpty
          || pattern.dropLast.isPrefixOf (strBytes s))
        = fun s => pattern.dropLast.isPrefixOf (strBytes s) :=
      funext fun s => getKeys_pred_eq pattern.dropLast s
    have h1 : hf_get_keys st pattern
        = some (.ok ((get_account_keys st st.app_ctx.owner).filter
            (fun s => pattern.dropLast.isPrefixOf (strBytes s)))) := by
      unfold hf_get_keys
      rw [if_neg hp, h42, show isUtf8ContByte 42 = false from rfl,
        if_neg Bool.false_ne_true, if_neg (by simp : ¬(42 : Nat) ≠ 42)]
      dsimp only
      rw [hpred]
    refine ⟨h1, fun k => ?_⟩
    simp [List.mem_filter]

/-- C8 witness: listing with the pattern key-star in the fixture state returns
exactly key1 and key2. -/
theorem c8_get_keys_amended_witness :
    hf_get_keys gk_st (strBytes "key*") = some (GetKeysOut.ok ["key1", "key2"]) := by
  have h := (c8_get_keys_amended.2.2) gk_st (strBytes "key*") (by decide) (by decide)
  exact h.1.trans (by decide)

/-! ## Guest entry point (export.rs run) -/

/-- Embedding of export.rs run, the exported entry point.  The parameter
decodeCtx stands for the rmp deserialization of the context buffer into an
AppInput (external library code); the parameter dispatch stands for the
application-linked app_run symbol.  On decode failure the envelope failure
malformed input is returned and the dispatch is never consulted. -/
def run (decodeCtx : Bytes → Option AppInput)
    (dispatch : AppInput → Bytes → Except String Bytes)
    (ctxBuf argsBuf : Bytes) : AppOutput :=
  match decodeCtx ctxBuf with
  | none => .ko "malformed input"
  | some ctx => outputOf (dispatch ctx argsBuf)

/-- C7: when the context buffer does not decode as a CallContext, run returns
the envelope failure malformed input, and the result does not depend on the
registered dispatch at all, which is how the shallow embedding expresses that
no handler is invoked on this path. -/
theorem c7_malformed_input (decodeCtx : Bytes → Option AppInput)
    (dispatch : AppInput → Bytes → Except String Bytes)
    (ctxBuf argsBuf : Bytes)
    (h : decodeCtx ctxBuf = none) :
    run decodeCtx dispatch ctxBuf argsBuf = .ko "malformed input"
    ∧ ∀ dispatch2, run decodeCtx dispatch ctxBuf argsBuf
        = run decodeCtx dispatch2 ctxBuf argsBuf := by
  unfold run
  rw [h]
  exact ⟨rfl, fun _ => rfl⟩

/-- C7 witness: a decoder recognizing only the buffer [1] rejects the invalid
UTF-8 bytes 240 159 146 used by the regression test, and run returns the
malformed-input envelope. -/
theorem c7_malformed_input_witness :
    run (fun b => if b = [1] then some w_ctx else none)
        (fun _ _ => Except.ok []) [240, 159, 146] []
      = AppOutput.ko "malformed input" :=
  (c7_malformed_input _ _ _ _ (by decide)).1

/-! ## Signature verification mock (not_wasm.rs hf_verify, host_wrap.rs verify) -/

/-- Embedding of not_wasm.rs hf_verify.  The parameter pkDecodes stands for
the success of the rmp deserialization of the public-key buffer (external
library code): on failure the function returns 0 before touching the
signature; on success it returns the first signature byte as an i32, and the
unguarded index on an empty signature panics, modelled as none. -/
def hf_verify (pkDecodes : Bytes → Bool) (pk _dataBuf sign : Bytes) : Option Int :=
  if pkDecodes pk = false then some 0
  else
    match sign with
    | [] => none
    | b :: _ => some (Int.ofNat b)

/-- Embedding of host_wrap.rs verify.  The parameter encodePk stands for
rmp_serialize of the public key; a serialization failure short-circuits to
false, otherwise the hf_verify result is compared against 1. -/
def verify {α : Type} (encodePk : α → Option Bytes) (pkDecodes : Bytes → Bool)
    (pk : α) (dataBuf sign : Bytes) : Option Bool :=
  match encodePk pk with
  | none => some false
  | some pkBuf => (hf_verify pkDecodes pkBuf dataBuf sign).map (fun r => r == 1)

/-- C10: when the public key deserializes, hf_verify panics on an empty
signature instead of returning 0, and returns the first signature byte for
any non-empty signature; consequently the verify wrapper reports true exactly
when the public key serializes (and, round-tripping, deserializes) and the
first signature byte equals 1. -/
theorem c10_verify_partiality :
    (∀ (pkDecodes : Bytes → Bool) (pk dataBuf : Bytes), pkDecodes pk = true →
      hf_verify pkDecodes pk dataBuf [] = none)
    ∧ (∀ (pkDecodes : Bytes → Bool) (pk dataBuf : Bytes) (b : Nat) (rest : Bytes),
      pkDecodes pk = true →
      hf_verify pkDecodes pk dataBuf (b :: rest) = some (Int.ofNat b))
    ∧ (∀ (α : Type) (encodePk : α → Option Bytes) (pkDecodes : Bytes → Bool)
        (pk : α) (dataBuf sign : Bytes),
      (∀ buf, encodePk pk = some buf → pkDecodes buf = true) →
      (verify encodePk pkDecodes pk dataBuf sign = some true ↔
        (encodePk pk).isSome = true ∧ sign.head? = some 1)) := by
  refine ⟨?_, ?_, ?_⟩
  · intro d pk dataBuf h
    simp [hf_verify, h]
  · intro d pk dataBuf b rest h
    simp [hf_verify, h]
  · intro α enc d pk dataBuf sign hrt
    cases henc : enc pk with
    | none => simp [verify, henc]
    | some buf =>
      cases sign with
      | nil => simp [verify, henc, hf_verify, hrt buf henc]
      | cons b rest =>
        simp [verify, henc, hf_verify, hrt buf henc, beq_iff_eq]

/-- C10 witness: with a decoding public key and an empty signature the mock
verifier panics. -/
theorem c10_verify_partiality_witness :
    hf_verify (fun _ => true) [0] [] [] = none :=
  c10_verify_partiality.1 (fun _ => true) [0] [] rfl

end Trinci
